import Mathlib

/-!
Verification of the deterministic plant mating-system simulators
(`deterministic_model1.c`, Model A, 6 genotypes; `deterministic_model2.c`,
Model B, 9 genotypes).  The per-generation recurrence, the gamete-pool
construction, the classifier and the parameter conversions are embedded
over the rationals, mirroring the C arithmetic expression by expression.
-/

namespace Inconstant

/-- Model parameters, mirroring the global variables of both C files.
`ppY` is only read by Model A's dynamics. -/
structure Params where
  h : ℚ
  S : ℚ
  d : ℚ
  V : ℚ
  Q : ℚ
  F : ℚ
  PSatF : ℚ
  ppY : ℚ

/-- Pollen saturation point for cosex receivers, `PSatC = PSatF * F * (1 - S)`. -/
def PSatC (P : Params) : ℚ := P.PSatF * P.F * (1 - P.S)

/-- Pollen-limited egg contribution: if total pollen reaches the threshold `T`
the receiver contributes its full potential `x`, otherwise the contribution is
scaled linearly by `tp / T`.  This is the repeated
`if (totalpollen >= T) x else x * totalpollen / T` pattern of both C files. -/
def limitC (tp T x : ℚ) : ℚ := if T ≤ tp then x else x * tp / T

/-- The six equilibrium categories; `none` is the C value 0. -/
inductive Category where
  | none
  | PGD
  | SSD
  | DIO
  | PAD
  | INC
deriving DecidableEq

/-- The classifier at the end of both C main loops, applied to the three
functional-class aggregates, in the source's exact test order. -/
def classify (female male inconstant threshold : ℚ) : Category :=
  if male > threshold ∧ female > threshold ∧ inconstant > threshold then Category.SSD
  else if male > threshold ∧ female > threshold then Category.DIO
  else if female > threshold ∧ inconstant > threshold then Category.PGD
  else if male > threshold ∧ inconstant > threshold then Category.PAD
  else if inconstant > threshold then Category.INC
  else Category.none

/-- Modelled from the spec (section 4.4 classification rule): the same
priority list written in the spec's order and wording, for comparison with
`classify` taken from the source. -/
def classifySpec (female male inconstant threshold : ℚ) : Category :=
  if female > threshold ∧ male > threshold ∧ inconstant > threshold then Category.SSD
  else if female > threshold ∧ male > threshold then Category.DIO
  else if female > threshold ∧ inconstant > threshold then Category.PGD
  else if male > threshold ∧ inconstant > threshold then Category.PAD
  else if inconstant > threshold then Category.INC
  else Category.none

/-- Conversion used by the old-format sweep axes: `Q = 1 / (1 + K)`. -/
def QofK (K : ℚ) : ℚ := 1 / (1 + K)

/-- Inverse conversion printed by the program: `K = (1 / Q) - 1`. -/
def KofQ (Q : ℚ) : ℚ := 1 / Q - 1

/-- Conversion used by the old-format sweep axes: `F = 1 / (1 + k)`. -/
def FofSmallk (k : ℚ) : ℚ := 1 / (1 + k)

/-- Inverse conversion printed by the program: `k = (1 / F) - 1`. -/
def SmallkOfF (F : ℚ) : ℚ := 1 / F - 1

/-! ## Model A (deterministic_model1.c): 6 genotypes AA, Aa, Aa*, aa, aa*, a*a* -/

/-- Model A genotype frequency vector, field names as in the C source. -/
@[ext]
structure VecA where
  f_AA : ℚ
  f_Aa : ℚ
  f_Aas : ℚ
  f_aa : ℚ
  f_aas : ℚ
  f_asas : ℚ
deriving DecidableEq

/-- The all-zero (extinct) Model A state. -/
def zeroA : VecA := ⟨0, 0, 0, 0, 0, 0⟩

/-- Componentwise addition of Model A vectors (the C `+=` accumulation). -/
def addA (u v : VecA) : VecA :=
  ⟨u.f_AA + v.f_AA, u.f_Aa + v.f_Aa, u.f_Aas + v.f_Aas,
   u.f_aa + v.f_aa, u.f_aas + v.f_aas, u.f_asas + v.f_asas⟩

/-- All six Model A frequencies are non-negative. -/
def NonnegA (v : VecA) : Prop :=
  0 ≤ v.f_AA ∧ 0 ≤ v.f_Aa ∧ 0 ≤ v.f_Aas ∧ 0 ≤ v.f_aa ∧ 0 ≤ v.f_aas ∧ 0 ≤ v.f_asas

instance (v : VecA) : Decidable (NonnegA v) := by unfold NonnegA; infer_instance

/-- Total frequency of a Model A vector. -/
def sumA (v : VecA) : ℚ :=
  v.f_AA + v.f_Aa + v.f_Aas + v.f_aa + v.f_aas + v.f_asas

/-- Model A pollen pool over the three alleles A, a, a*. -/
@[ext]
structure PoolA where
  p_A : ℚ
  p_a : ℚ
  p_as : ℚ
deriving DecidableEq

/-- Raw (unnormalized) Model A pollen production, source by source as in the C
code, with the Y-pollen viability factor `ppY` applied to `p_a` and `p_as`
after summation. -/
def pollenRawA (P : Params) (v : VecA) : PoolA where
  p_A := v.f_Aa * (1/2)
       + v.f_Aas * (1/2) * P.h * P.Q
       + v.f_Aas * (1/2) * (1 - P.h)
  p_a := (v.f_Aa * (1/2)
       + v.f_aa
       + v.f_aas * (1/2) * P.h * P.Q
       + v.f_aas * (1/2) * (1 - P.h)) * P.ppY
  p_as := (v.f_Aas * (1/2) * P.h * P.Q
       + v.f_Aas * (1/2) * (1 - P.h)
       + v.f_aas * (1/2) * P.h * P.Q
       + v.f_aas * (1/2) * (1 - P.h)
       + v.f_asas * P.h * P.Q
       + v.f_asas * (1 - P.h)) * P.ppY

/-- `totalpollen` of Model A: sum of the raw pollen entries (computed after
the `ppY` discount, before normalization, exactly as in the C code). -/
def totalpollenA (P : Params) (v : VecA) : ℚ :=
  (pollenRawA P v).p_A + (pollenRawA P v).p_a + (pollenRawA P v).p_as

/-- Normalized Model A pollen pool: divided by `totalpollen` when that is
positive, otherwise left as the raw pool. -/
def pollenA (P : Params) (v : VecA) : PoolA :=
  if 0 < totalpollenA P v then
    ⟨(pollenRawA P v).p_A / totalpollenA P v,
     (pollenRawA P v).p_a / totalpollenA P v,
     (pollenRawA P v).p_as / totalpollenA P v⟩
  else pollenRawA P v

/-- Model A egg pool over the three alleles A, a, a*. -/
@[ext]
structure EggA where
  e_A : ℚ
  e_a : ℚ
  e_as : ℚ
deriving DecidableEq

/-- Model A outcrossed egg frequencies, receiver by receiver: pure females
(AA) saturate at `PSatF`, cosex-acting inconstants at `PSatC`, and the pool
is deliberately left unnormalized. -/
def eggA (P : Params) (v : VecA) : EggA :=
  let tp := totalpollenA P v
  { e_A := limitC tp P.PSatF v.f_AA
         + limitC tp (PSatC P) (v.f_Aas * P.h * (1/2) * (1 - P.S) * P.F)
    e_a := limitC tp (PSatC P) (v.f_aas * P.h * (1/2) * (1 - P.S) * P.F)
    e_as := limitC tp (PSatC P) (v.f_Aas * P.h * (1/2) * (1 - P.S) * P.F)
          + limitC tp (PSatC P) (v.f_aas * P.h * (1/2) * (1 - P.S) * P.F)
          + limitC tp (PSatC P) (v.f_asas * P.h * (1 - P.S) * P.F) }

/-- Model A offspring from outcrossing: the fixed Mendelian bilinear map of
pollen and egg allele frequencies. -/
def outcrossA (p : PoolA) (e : EggA) : VecA where
  f_AA := p.p_A * e.e_A
  f_Aa := p.p_A * e.e_a + p.p_a * e.e_A
  f_Aas := p.p_A * e.e_as + p.p_as * e.e_A
  f_aa := p.p_a * e.e_a
  f_aas := p.p_a * e.e_as + p.p_as * e.e_a
  f_asas := p.p_as * e.e_as

/-- Selfed offspring of the Aa* heterozygote at parent frequency `fg`: the
self-cross ratios are skewed by X/Y pollen competition through `ppY`. -/
def selfFrom_Aas_A (P : Params) (fg : ℚ) : VecA where
  f_AA := fg * ((1/2) / (1 + P.ppY)) * P.S * (1 - P.d) * P.h * P.F
  f_Aa := 0
  f_Aas := fg * (1/2) * P.S * (1 - P.d) * P.h * P.F
  f_aa := 0
  f_aas := 0
  f_asas := fg * ((1/2) * P.ppY / (1 + P.ppY)) * P.S * (1 - P.d) * P.h * P.F

/-- Selfed offspring of the aa* heterozygote at parent frequency `fg`:
plain Mendelian 1/4 : 1/2 : 1/4 ratios. -/
def selfFrom_aas_A (P : Params) (fg : ℚ) : VecA where
  f_AA := 0
  f_Aa := 0
  f_Aas := 0
  f_aa := fg * (1/4) * P.S * (1 - P.d) * P.h * P.F
  f_aas := fg * (1/2) * P.S * (1 - P.d) * P.h * P.F
  f_asas := fg * (1/4) * P.S * (1 - P.d) * P.h * P.F

/-- Selfed offspring of the a*a* homozygote at parent frequency `fg`. -/
def selfFrom_asas_A (P : Params) (fg : ℚ) : VecA where
  f_AA := 0
  f_Aa := 0
  f_Aas := 0
  f_aa := 0
  f_aas := 0
  f_asas := fg * P.S * (1 - P.d) * P.h * P.F

/-- Total Model A selfing additions: the three cosex-capable genotypes are
the only sources. -/
def selfAddA (P : Params) (v : VecA) : VecA :=
  addA (addA (selfFrom_Aas_A P v.f_Aas) (selfFrom_aas_A P v.f_aas))
       (selfFrom_asas_A P v.f_asas)

/-- YY viability penalty of Model A: genotypes aa, aa*, a*a* are scaled by `V`. -/
def applyVA (P : Params) (v : VecA) : VecA :=
  { v with f_aa := v.f_aa * P.V, f_aas := v.f_aas * P.V, f_asas := v.f_asas * P.V }

/-- One Model A generation before the final renormalization: outcrossing plus
selfing, then the YY penalty. -/
def preNormA (P : Params) (v : VecA) : VecA :=
  applyVA P (addA (outcrossA (pollenA P v) (eggA P v)) (selfAddA P v))

/-- One full Model A generation step, with the final renormalization that is
skipped exactly when the total is not positive. -/
def genA (P : Params) (v : VecA) : VecA :=
  if 0 < sumA (preNormA P v) then
    ⟨(preNormA P v).f_AA / sumA (preNormA P v),
     (preNormA P v).f_Aa / sumA (preNormA P v),
     (preNormA P v).f_Aas / sumA (preNormA P v),
     (preNormA P v).f_aa / sumA (preNormA P v),
     (preNormA P v).f_aas / sumA (preNormA P v),
     (preNormA P v).f_asas / sumA (preNormA P v)⟩
  else preNormA P v

/-- Model A initial condition: dioecy start by default, pseudo-gynodioecy
start when the `pgd` flag is set. -/
def initA (pgd : Bool) : VecA :=
  if pgd then ⟨499/1000, 2/1000, 499/1000, 0, 0, 0⟩
  else ⟨499/1000, 499/1000, 2/1000, 0, 0, 0⟩

/-- Model A equilibrium simulator: iterate the generation step `n` times. -/
def simulateA (P : Params) (pgd : Bool) (n : ℕ) : VecA :=
  (genA P)^[n] (initA pgd)

/-- Model A female aggregate. -/
def femaleA (v : VecA) : ℚ := v.f_AA

/-- Model A male aggregate. -/
def maleA (v : VecA) : ℚ := v.f_Aa + v.f_aa

/-- Model A inconstant aggregate. -/
def inconstantA (v : VecA) : ℚ := v.f_Aas + v.f_aas + v.f_asas

/-- Model A end-to-end category output at a parameter point. -/
def categoryA (P : Params) (pgd : Bool) (n : ℕ) (threshold : ℚ) : Category :=
  classify (femaleA (simulateA P pgd n)) (maleA (simulateA P pgd n))
    (inconstantA (simulateA P pgd n)) threshold

/-- Only genotype AA (pure females) is present: the entirely-female state. -/
def allFemaleA (v : VecA) : Prop :=
  v.f_Aa = 0 ∧ v.f_Aas = 0 ∧ v.f_aa = 0 ∧ v.f_aas = 0 ∧ v.f_asas = 0

instance (v : VecA) : Decidable (allFemaleA v) := by unfold allFemaleA; infer_instance

/-! ## Model B (deterministic_model2.c): 9 genotypes, loci {AA,Aa,aa} × {MM,Mm,mm} -/

/-- Model B genotype frequency vector, field names as in the C source. -/
@[ext]
structure VecB where
  f_AA_MM : ℚ
  f_AA_Mm : ℚ
  f_AA_mm : ℚ
  f_Aa_MM : ℚ
  f_Aa_Mm : ℚ
  f_Aa_mm : ℚ
  f_aa_MM : ℚ
  f_aa_Mm : ℚ
  f_aa_mm : ℚ
deriving DecidableEq

/-- The all-zero (extinct) Model B state. -/
def zeroB : VecB := ⟨0, 0, 0, 0, 0, 0, 0, 0, 0⟩

/-- Componentwise addition of Model B vectors (the C `+=` accumulation). -/
def addB (u v : VecB) : VecB :=
  ⟨u.f_AA_MM + v.f_AA_MM, u.f_AA_Mm + v.f_AA_Mm, u.f_AA_mm + v.f_AA_mm,
   u.f_Aa_MM + v.f_Aa_MM, u.f_Aa_Mm + v.f_Aa_Mm, u.f_Aa_mm + v.f_Aa_mm,
   u.f_aa_MM + v.f_aa_MM, u.f_aa_Mm + v.f_aa_Mm, u.f_aa_mm + v.f_aa_mm⟩

/-- All nine Model B frequencies are non-negative. -/
def NonnegB (v : VecB) : Prop :=
  0 ≤ v.f_AA_MM ∧ 0 ≤ v.f_AA_Mm ∧ 0 ≤ v.f_AA_mm ∧
  0 ≤ v.f_Aa_MM ∧ 0 ≤ v.f_Aa_Mm ∧ 0 ≤ v.f_Aa_mm ∧
  0 ≤ v.f_aa_MM ∧ 0 ≤ v.f_aa_Mm ∧ 0 ≤ v.f_aa_mm

instance (v : VecB) : Decidable (NonnegB v) := by unfold NonnegB; infer_instance

/-- Total frequency of a Model B vector. -/
def sumB (v : VecB) : ℚ :=
  v.f_AA_MM + v.f_AA_Mm + v.f_AA_mm + v.f_Aa_MM + v.f_Aa_Mm + v.f_Aa_mm +
  v.f_aa_MM + v.f_aa_Mm + v.f_aa_mm

/-- Model B pollen pool over the four allele combinations AM, Am, aM, am. -/
@[ext]
structure PoolB where
  p_A_M : ℚ
  p_A_m : ℚ
  p_a_M : ℚ
  p_a_m : ℚ
deriving DecidableEq

/-- Raw (unnormalized) Model B pollen production, source by source as in the
C code (no `ppY` mechanism in Model B). -/
def pollenRawB (P : Params) (v : VecB) : PoolB where
  p_A_M := v.f_Aa_MM * (1/2) * P.h * P.Q
         + v.f_Aa_MM * (1/2) * (1 - P.h)
         + v.f_Aa_Mm * (1/4) * P.h * P.Q
         + v.f_Aa_Mm * (1/4) * (1 - P.h)
  p_A_m := v.f_Aa_Mm * (1/4) * P.h * P.Q
         + v.f_Aa_Mm * (1/4) * (1 - P.h)
         + v.f_Aa_mm * (1/2)
  p_a_M := v.f_Aa_MM * (1/2) * P.h * P.Q
         + v.f_Aa_MM * (1/2) * (1 - P.h)
         + v.f_Aa_Mm * (1/4) * P.h * P.Q
         + v.f_Aa_Mm * (1/4) * (1 - P.h)
         + v.f_aa_MM * P.h * P.Q
         + v.f_aa_MM * (1 - P.h)
         + v.f_aa_Mm * (1/2) * P.h * P.Q
         + v.f_aa_Mm * (1/2) * (1 - P.h)
  p_a_m := v.f_Aa_Mm * (1/4) * P.h * P.Q
         + v.f_Aa_Mm * (1/4) * (1 - P.h)
         + v.f_Aa_mm * (1/2)
         + v.f_aa_Mm * (1/2) * P.h * P.Q
         + v.f_aa_Mm * (1/2) * (1 - P.h)
         + v.f_aa_mm

/-- `totalpollen` of Model B: sum of the raw pollen entries, before
normalization. -/
def totalpollenB (P : Params) (v : VecB) : ℚ :=
  (pollenRawB P v).p_A_M + (pollenRawB P v).p_A_m +
  (pollenRawB P v).p_a_M + (pollenRawB P v).p_a_m

/-- Normalized Model B pollen pool: divided by `totalpollen` when that is
positive, otherwise left as the raw pool. -/
def pollenB (P : Params) (v : VecB) : PoolB :=
  if 0 < totalpollenB P v then
    ⟨(pollenRawB P v).p_A_M / totalpollenB P v,
     (pollenRawB P v).p_A_m / totalpollenB P v,
     (pollenRawB P v).p_a_M / totalpollenB P v,
     (pollenRawB P v).p_a_m / totalpollenB P v⟩
  else pollenRawB P v

/-- Model B egg pool over the four allele combinations AM, Am, aM, am. -/
@[ext]
structure EggB where
  e_A_M : ℚ
  e_A_m : ℚ
  e_a_M : ℚ
  e_a_m : ℚ
deriving DecidableEq

/-- Model B outcrossed egg frequencies, receiver by receiver: the three pure
female genotypes (AA **) saturate at `PSatF`, the cosex-acting inconstants at
`PSatC`; the pool is deliberately left unnormalized. -/
def eggB (P : Params) (v : VecB) : EggB :=
  let tp := totalpollenB P v
  { e_A_M := limitC tp P.PSatF v.f_AA_MM
           + limitC tp P.PSatF (v.f_AA_Mm * (1/2))
           + limitC tp (PSatC P) (v.f_Aa_MM * P.h * (1/2) * (1 - P.S) * P.F)
           + limitC tp (PSatC P) (v.f_Aa_Mm * P.h * (1/4) * (1 - P.S) * P.F)
    e_A_m := limitC tp P.PSatF (v.f_AA_Mm * (1/2))
           + limitC tp P.PSatF v.f_AA_mm
           + limitC tp (PSatC P) (v.f_Aa_Mm * P.h * (1/4) * (1 - P.S) * P.F)
    e_a_M := limitC tp (PSatC P) (v.f_Aa_MM * P.h * (1/2) * (1 - P.S) * P.F)
           + limitC tp (PSatC P) (v.f_Aa_Mm * P.h * (1/4) * (1 - P.S) * P.F)
           + limitC tp (PSatC P) (v.f_aa_MM * P.h * (1 - P.S) * P.F)
           + limitC tp (PSatC P) (v.f_aa_Mm * P.h * (1/2) * (1 - P.S) * P.F)
    e_a_m := limitC tp (PSatC P) (v.f_Aa_Mm * P.h * (1/4) * (1 - P.S) * P.F)
           + limitC tp (PSatC P) (v.f_aa_Mm * P.h * (1/2) * (1 - P.S) * P.F) }

/-- Model B offspring from outcrossing: the fixed Mendelian bilinear map of
the four pollen and four egg combination frequencies. -/
def outcrossB (p : PoolB) (e : EggB) : VecB where
  f_AA_MM := p.p_A_M * e.e_A_M
  f_AA_Mm := p.p_A_M * e.e_A_m + p.p_A_m * e.e_A_M
  f_AA_mm := p.p_A_m * e.e_A_m
  f_Aa_MM := p.p_A_M * e.e_a_M + p.p_a_M * e.e_A_M
  f_Aa_Mm := p.p_A_M * e.e_a_m + p.p_A_m * e.e_a_M + p.p_a_M * e.e_A_m + p.p_a_m * e.e_A_M
  f_Aa_mm := p.p_A_m * e.e_a_m + p.p_a_m * e.e_A_m
  f_aa_MM := p.p_a_M * e.e_a_M
  f_aa_Mm := p.p_a_M * e.e_a_m + p.p_a_m * e.e_a_M
  f_aa_mm := p.p_a_m * e.e_a_m

/-- Selfed offspring of the Aa MM genotype at parent frequency `fg`. -/
def selfFrom_AaMM_B (P : Params) (fg : ℚ) : VecB where
  f_AA_MM := fg * (1/4) * P.S * (1 - P.d) * P.h * P.F
  f_AA_Mm := 0
  f_AA_mm := 0
  f_Aa_MM := fg * (1/2) * P.S * (1 - P.d) * P.h * P.F
  f_Aa_Mm := 0
  f_Aa_mm := 0
  f_aa_MM := fg * (1/4) * P.S * (1 - P.d) * P.h * P.F
  f_aa_Mm := 0
  f_aa_mm := 0

/-- Selfed offspring of the double heterozygote Aa Mm at parent frequency
`fg`: the full 1/16 : 1/8 : ... dihybrid self-cross table. -/
def selfFrom_AaMm_B (P : Params) (fg : ℚ) : VecB where
  f_AA_MM := fg * (1/16) * P.S * (1 - P.d) * P.h * P.F
  f_AA_Mm := fg * (1/8) * P.S * (1 - P.d) * P.h * P.F
  f_AA_mm := fg * (1/16) * P.S * (1 - P.d) * P.h * P.F
  f_Aa_MM := fg * (1/8) * P.S * (1 - P.d) * P.h * P.F
  f_Aa_Mm := fg * (1/4) * P.S * (1 - P.d) * P.h * P.F
  f_Aa_mm := fg * (1/8) * P.S * (1 - P.d) * P.h * P.F
  f_aa_MM := fg * (1/16) * P.S * (1 - P.d) * P.h * P.F
  f_aa_Mm := fg * (1/8) * P.S * (1 - P.d) * P.h * P.F
  f_aa_mm := fg * (1/16) * P.S * (1 - P.d) * P.h * P.F

/-- Selfed offspring of the aa MM genotype at parent frequency `fg`. -/
def selfFrom_aaMM_B (P : Params) (fg : ℚ) : VecB where
  f_AA_MM := 0
  f_AA_Mm := 0
  f_AA_mm := 0
  f_Aa_MM := 0
  f_Aa_Mm := 0
  f_Aa_mm := 0
  f_aa_MM := fg * P.S * (1 - P.d) * P.h * P.F
  f_aa_Mm := 0
  f_aa_mm := 0

/-- Selfed offspring of the aa Mm genotype at parent frequency `fg`. -/
def selfFrom_aaMm_B (P : Params) (fg : ℚ) : VecB where
  f_AA_MM := 0
  f_AA_Mm := 0
  f_AA_mm := 0
  f_Aa_MM := 0
  f_Aa_Mm := 0
  f_Aa_mm := 0
  f_aa_MM := fg * (1/4) * P.S * (1 - P.d) * P.h * P.F
  f_aa_Mm := fg * (1/2) * P.S * (1 - P.d) * P.h * P.F
  f_aa_mm := fg * (1/4) * P.S * (1 - P.d) * P.h * P.F

/-- Total Model B selfing additions: the four cosex-capable genotypes are the
only sources. -/
def selfAddB (P : Params) (v : VecB) : VecB :=
  addB (addB (selfFrom_AaMM_B P v.f_Aa_MM) (selfFrom_AaMm_B P v.f_Aa_Mm))
       (addB (selfFrom_aaMM_B P v.f_aa_MM) (selfFrom_aaMm_B P v.f_aa_Mm))

/-- YY viability penalty of Model B: the three aa ** genotypes are scaled by `V`. -/
def applyVB (P : Params) (v : VecB) : VecB :=
  { v with f_aa_MM := v.f_aa_MM * P.V, f_aa_Mm := v.f_aa_Mm * P.V,
           f_aa_mm := v.f_aa_mm * P.V }

/-- One Model B generation before the final renormalization: outcrossing plus
selfing, then the YY penalty. -/
def preNormB (P : Params) (v : VecB) : VecB :=
  applyVB P (addB (outcrossB (pollenB P v) (eggB P v)) (selfAddB P v))

/-- One full Model B generation step, with the final renormalization that is
skipped exactly when the total is not positive. -/
def genB (P : Params) (v : VecB) : VecB :=
  if 0 < sumB (preNormB P v) then
    ⟨(preNormB P v).f_AA_MM / sumB (preNormB P v),
     (preNormB P v).f_AA_Mm / sumB (preNormB P v),
     (preNormB P v).f_AA_mm / sumB (preNormB P v),
     (preNormB P v).f_Aa_MM / sumB (preNormB P v),
     (preNormB P v).f_Aa_Mm / sumB (preNormB P v),
     (preNormB P v).f_Aa_mm / sumB (preNormB P v),
     (preNormB P v).f_aa_MM / sumB (preNormB P v),
     (preNormB P v).f_aa_Mm / sumB (preNormB P v),
     (preNormB P v).f_aa_mm / sumB (preNormB P v)⟩
  else preNormB P v

/-- Model B initial condition: dioecy start by default, pseudo-gynodioecy
start when the `pgd` flag is set. -/
def initB (pgd : Bool) : VecB :=
  if pgd then ⟨499/1000, 0, 0, 499/1000, 0, 2/1000, 0, 0, 0⟩
  else ⟨0, 0, 499/1000, 0, 2/1000, 499/1000, 0, 0, 0⟩

/-- Model B equilibrium simulator: iterate the generation step `n` times. -/
def simulateB (P : Params) (pgd : Bool) (n : ℕ) : VecB :=
  (genB P)^[n] (initB pgd)

/-- Model B female aggregate: the three AA ** genotypes. -/
def femaleB (v : VecB) : ℚ := v.f_AA_MM + v.f_AA_Mm + v.f_AA_mm

/-- Model B male aggregate: the two ** mm pure-male genotypes. -/
def maleB (v : VecB) : ℚ := v.f_Aa_mm + v.f_aa_mm

/-- Model B inconstant aggregate: the four modifier-carrying genotypes. -/
def inconstantB (v : VecB) : ℚ := v.f_Aa_MM + v.f_Aa_Mm + v.f_aa_MM + v.f_aa_Mm

/-- Model B end-to-end category output at a parameter point. -/
def categoryB (P : Params) (pgd : Bool) (n : ℕ) (threshold : ℚ) : Category :=
  classify (femaleB (simulateB P pgd n)) (maleB (simulateB P pgd n))
    (inconstantB (simulateB P pgd n)) threshold

/-- Only the AA ** genotypes (pure females) are present: the entirely-female
Model B state. -/
def allFemaleB (v : VecB) : Prop :=
  v.f_Aa_MM = 0 ∧ v.f_Aa_Mm = 0 ∧ v.f_Aa_mm = 0 ∧
  v.f_aa_MM = 0 ∧ v.f_aa_Mm = 0 ∧ v.f_aa_mm = 0

instance (v : VecB) : Decidable (allFemaleB v) := by unfold allFemaleB; infer_instance

/-- A fixed concrete parameter point (the program defaults) used to
instantiate universally quantified theorems. -/
def Pdef : Params := ⟨1/2, 0, 0, 1, 1, 1, 0, 1⟩

/-! ## Helper lemmas -/

/-- A pollen-limited contribution is non-negative whenever the total pollen
and the full potential contribution are. -/
lemma limitC_nonneg {tp T x : ℚ} (htp : 0 ≤ tp) (hx : 0 ≤ x) :
    0 ≤ limitC tp T x := by
  unfold limitC
  split_ifs with hc
  · exact hx
  · have hT : 0 < T := lt_of_le_of_lt htp (not_le.mp hc)
    positivity

/-- A pollen-limited contribution of a zero potential is zero. -/
lemma limitC_zero (tp T : ℚ) : limitC tp T 0 = 0 := by
  unfold limitC
  split_ifs <;> simp

/-! ## C10: functional-class aggregation is a partition -/

/-- C10: in both models every genotype is counted in exactly one of the three
aggregates, so female + male + inconstant equals the total frequency. -/
theorem class_partition (vA : VecA) (vB : VecB) :
    femaleA vA + maleA vA + inconstantA vA = sumA vA ∧
    femaleB vB + maleB vB + inconstantB vB = sumB vB := by
  constructor
  · unfold femaleA maleA inconstantA sumA; ring
  · unfold femaleB maleB inconstantB sumB; ring

/-! ## C8: reciprocal parameterization roundtrip -/

/-- C8: for K, k at least 0, converting to Q = 1/(1+K), F = 1/(1+k) and back
via K = 1/Q - 1, k = 1/F - 1 recovers the original values exactly. -/
theorem reciprocal_roundtrip (K k : ℚ) (hK : 0 ≤ K) (hk : 0 ≤ k) :
    KofQ (QofK K) = K ∧ SmallkOfF (FofSmallk k) = k := by
  have hK1 : (1 : ℚ) + K ≠ 0 := by positivity
  have hk1 : (1 : ℚ) + k ≠ 0 := by positivity
  constructor
  · unfold KofQ QofK; rw [one_div_one_div]; ring
  · unfold SmallkOfF FofSmallk; rw [one_div_one_div]; ring

/-- Witness for C8 at the concrete point K = 2, k = 3. -/
theorem reciprocal_roundtrip_runs :
    (0 : ℚ) ≤ 2 ∧ (KofQ (QofK 2) = 2 ∧ SmallkOfF (FofSmallk 3) = 3) :=
  ⟨by norm_num, reciprocal_roundtrip 2 3 (by norm_num) (by norm_num)⟩

/-! ## C9: extinction is an absorbing fixed point -/

/-- C9: the all-zero vector is a fixed point of the generation step in both
models, for every parameter setting, with no division by zero. -/
theorem extinction_fixed_point (P : Params) :
    genA P zeroA = zeroA ∧ genB P zeroB = zeroB := by
  constructor
  · simp [genA, preNormA, applyVA, addA, outcrossA, selfAddA, selfFrom_Aas_A,
      selfFrom_aas_A, selfFrom_asas_A, eggA, pollenA, pollenRawA, totalpollenA,
      sumA, zeroA, limitC_zero, limitC]
  · simp [genB, preNormB, applyVB, addB, outcrossB, selfAddB, selfFrom_AaMM_B,
      selfFrom_AaMm_B, selfFrom_aaMM_B, selfFrom_aaMm_B, eggB, pollenB,
      pollenRawB, totalpollenB, sumB, zeroB, limitC_zero, limitC]

/-! ## C7: determinism of the simulator -/

/-- C7: the simulation and its category output are a function of the
parameter values alone; two parameter records that agree on every field give
identical final frequency vectors and identical categories in both models. -/
theorem simulator_deterministic (P Pt : Params) (pgd : Bool) (n : ℕ) (thr : ℚ)
    (hh : P.h = Pt.h) (hS : P.S = Pt.S) (hd : P.d = Pt.d) (hV : P.V = Pt.V)
    (hQ : P.Q = Pt.Q) (hF : P.F = Pt.F) (hPS : P.PSatF = Pt.PSatF)
    (hpp : P.ppY = Pt.ppY) :
    simulateA P pgd n = simulateA Pt pgd n ∧
    categoryA P pgd n thr = categoryA Pt pgd n thr ∧
    simulateB P pgd n = simulateB Pt pgd n ∧
    categoryB P pgd n thr = categoryB Pt pgd n thr := by
  obtain ⟨a1, a2, a3, a4, a5, a6, a7, a8⟩ := P
  obtain ⟨b1, b2, b3, b4, b5, b6, b7, b8⟩ := Pt
  dsimp at hh hS hd hV hQ hF hPS hpp
  subst hh hS hd hV hQ hF hPS hpp
  exact ⟨rfl, rfl, rfl, rfl⟩

/-- Witness for C7: two runs at the default parameter point coincide. -/
theorem simulator_deterministic_runs :
    Pdef.h = Pdef.h ∧
    (simulateA Pdef false 2 = simulateA Pdef false 2 ∧
     categoryA Pdef false 2 (1/100) = categoryA Pdef false 2 (1/100) ∧
     simulateB Pdef false 2 = simulateB Pdef false 2 ∧
     categoryB Pdef false 2 (1/100) = categoryB Pdef false 2 (1/100)) :=
  ⟨rfl, simulator_deterministic Pdef Pdef false 2 (1/100) rfl rfl rfl rfl rfl rfl rfl rfl⟩

/-! ## C5: selfing redistributes but conserves the selfed mass -/

/-- C5: each cosex-capable genotype at frequency `fg` adds exactly
`fg * S * (1-d) * h * F` of selfed offspring in total, in both models; in
particular the ppY-adjusted self-cross coefficients of the Aa* heterozygote
sum to 1 for every ppY at least 0. -/
theorem selfing_mass_conserved (P : Params) (fg : ℚ) (hpp : 0 ≤ P.ppY) :
    sumA (selfFrom_Aas_A P fg) = fg * P.S * (1 - P.d) * P.h * P.F ∧
    sumA (selfFrom_aas_A P fg) = fg * P.S * (1 - P.d) * P.h * P.F ∧
    sumA (selfFrom_asas_A P fg) = fg * P.S * (1 - P.d) * P.h * P.F ∧
    sumB (selfFrom_AaMM_B P fg) = fg * P.S * (1 - P.d) * P.h * P.F ∧
    sumB (selfFrom_AaMm_B P fg) = fg * P.S * (1 - P.d) * P.h * P.F ∧
    sumB (selfFrom_aaMM_B P fg) = fg * P.S * (1 - P.d) * P.h * P.F ∧
    sumB (selfFrom_aaMm_B P fg) = fg * P.S * (1 - P.d) * P.h * P.F ∧
    (1/2) / (1 + P.ppY) + 1/2 + (1/2) * P.ppY / (1 + P.ppY) = 1 := by
  have hne : (1 : ℚ) + P.ppY ≠ 0 := by positivity
  refine ⟨?_, ?_, ?_, ?_, ?_, ?_, ?_, ?_⟩
  · unfold sumA selfFrom_Aas_A; dsimp; field_simp; ring
  · unfold sumA selfFrom_aas_A; dsimp; ring
  · unfold sumA selfFrom_asas_A; dsimp; ring
  · unfold sumB selfFrom_AaMM_B; dsimp; ring
  · unfold sumB selfFrom_AaMm_B; dsimp; ring
  · unfold sumB selfFrom_aaMM_B; dsimp; ring
  · unfold sumB selfFrom_aaMm_B; dsimp; ring
  · field_simp; ring

/-- Witness for C5 at the default parameter point and parent frequency 1. -/
theorem selfing_mass_conserved_runs :
    (0 : ℚ) ≤ Pdef.ppY ∧
    (sumA (selfFrom_Aas_A Pdef 1) = 1 * Pdef.S * (1 - Pdef.d) * Pdef.h * Pdef.F ∧
     sumA (selfFrom_aas_A Pdef 1) = 1 * Pdef.S * (1 - Pdef.d) * Pdef.h * Pdef.F ∧
     sumA (selfFrom_asas_A Pdef 1) = 1 * Pdef.S * (1 - Pdef.d) * Pdef.h * Pdef.F ∧
     sumB (selfFrom_AaMM_B Pdef 1) = 1 * Pdef.S * (1 - Pdef.d) * Pdef.h * Pdef.F ∧
     sumB (selfFrom_AaMm_B Pdef 1) = 1 * Pdef.S * (1 - Pdef.d) * Pdef.h * Pdef.F ∧
     sumB (selfFrom_aaMM_B Pdef 1) = 1 * Pdef.S * (1 - Pdef.d) * Pdef.h * Pdef.F ∧
     sumB (selfFrom_aaMm_B Pdef 1) = 1 * Pdef.S * (1 - Pdef.d) * Pdef.h * Pdef.F ∧
     (1/2) / (1 + Pdef.ppY) + 1/2 + (1/2) * Pdef.ppY / (1 + Pdef.ppY) = 1) :=
  ⟨by norm_num [Pdef], selfing_mass_conserved Pdef 1 (by norm_num [Pdef])⟩

/-! ## C4: classifier follows the fixed priority order -/

/-- C4: the source classifier agrees with the spec's priority listing, and
each of its outputs is characterized by exactly the first matching case of
that priority order, with all comparisons strict. -/
theorem classifier_priority_order (f m i t : ℚ) :
    classify f m i t = classifySpec f m i t ∧
    (classify f m i t = Category.SSD ↔ f > t ∧ m > t ∧ i > t) ∧
    (classify f m i t = Category.DIO ↔ f > t ∧ m > t ∧ i ≤ t) ∧
    (classify f m i t = Category.PGD ↔ f > t ∧ i > t ∧ m ≤ t) ∧
    (classify f m i t = Category.PAD ↔ m > t ∧ i > t ∧ f ≤ t) ∧
    (classify f m i t = Category.INC ↔ i > t ∧ f ≤ t ∧ m ≤ t) ∧
    (classify f m i t = Category.none ↔ i ≤ t ∧ (f ≤ t ∨ m ≤ t)) := by
  unfold classify classifySpec
  split_ifs <;> simp_all [← not_lt] <;> tauto

/-! ## Nonnegativity of the generation-step pipeline -/

/-- Raw Model A pollen entries are non-negative for in-range parameters. -/
lemma pollenRawA_nonneg (P : Params) (v : VecA) (hv : NonnegA v)
    (hh0 : 0 ≤ P.h) (hh1 : P.h ≤ 1) (hQ : 0 ≤ P.Q) (hpp : 0 ≤ P.ppY) :
    0 ≤ (pollenRawA P v).p_A ∧ 0 ≤ (pollenRawA P v).p_a ∧
    0 ≤ (pollenRawA P v).p_as := by
  obtain ⟨h1, h2, h3, h4, h5, h6⟩ := hv
  have hmh : (0 : ℚ) ≤ 1 - P.h := by linarith
  unfold pollenRawA
  refine ⟨?_, ?_, ?_⟩ <;> dsimp <;> positivity

/-- Model A total pollen is non-negative for in-range parameters. -/
lemma totalpollenA_nonneg (P : Params) (v : VecA) (hv : NonnegA v)
    (hh0 : 0 ≤ P.h) (hh1 : P.h ≤ 1) (hQ : 0 ≤ P.Q) (hpp : 0 ≤ P.ppY) :
    0 ≤ totalpollenA P v := by
  obtain ⟨hA, ha, has⟩ := pollenRawA_nonneg P v hv hh0 hh1 hQ hpp
  unfold totalpollenA
  linarith

/-- Normalized Model A pollen entries are non-negative. -/
lemma pollenA_nonneg (P : Params) (v : VecA) (hv : NonnegA v)
    (hh0 : 0 ≤ P.h) (hh1 : P.h ≤ 1) (hQ : 0 ≤ P.Q) (hpp : 0 ≤ P.ppY) :
    0 ≤ (pollenA P v).p_A ∧ 0 ≤ (pollenA P v).p_a ∧ 0 ≤ (pollenA P v).p_as := by
  obtain ⟨hA, ha, has⟩ := pollenRawA_nonneg P v hv hh0 hh1 hQ hpp
  unfold pollenA
  split_ifs with ht
  · exact ⟨div_nonneg hA ht.le, div_nonneg ha ht.le, div_nonneg has ht.le⟩
  · exact ⟨hA, ha, has⟩

/-- The normalized Model A pollen pool sums to 1 when total pollen is positive. -/
lemma pollenA_sum_one (P : Params) (v : VecA) (ht : 0 < totalpollenA P v) :
    (pollenA P v).p_A + (pollenA P v).p_a + (pollenA P v).p_as = 1 := by
  unfold pollenA
  rw [if_pos ht]
  dsimp
  rw [div_add_div_same, div_add_div_same]
  have hs : (pollenRawA P v).p_A + (pollenRawA P v).p_a + (pollenRawA P v).p_as
      = totalpollenA P v := rfl
  rw [hs]
  exact div_self (ne_of_gt ht)

/-- When total pollen is zero the Model A pool is left at the raw values. -/
lemma pollenA_eq_raw (P : Params) (v : VecA) (ht : totalpollenA P v = 0) :
    pollenA P v = pollenRawA P v := by
  unfold pollenA
  rw [if_neg]
  rw [ht]
  exact lt_irrefl 0

/-- Model A egg entries are non-negative for in-range parameters. -/
lemma eggA_nonneg (P : Params) (v : VecA) (hv : NonnegA v)
    (htp : 0 ≤ totalpollenA P v) (hh0 : 0 ≤ P.h) (hS1 : P.S ≤ 1) (hF : 0 ≤ P.F) :
    0 ≤ (eggA P v).e_A ∧ 0 ≤ (eggA P v).e_a ∧ 0 ≤ (eggA P v).e_as := by
  obtain ⟨h1, h2, h3, h4, h5, h6⟩ := hv
  have hmS : (0 : ℚ) ≤ 1 - P.S := by linarith
  unfold eggA
  refine ⟨?_, ?_, ?_⟩ <;> dsimp
  · exact add_nonneg (limitC_nonneg htp h1) (limitC_nonneg htp (by positivity))
  · exact limitC_nonneg htp (by positivity)
  · exact add_nonneg (add_nonneg (limitC_nonneg htp (by positivity))
      (limitC_nonneg htp (by positivity))) (limitC_nonneg htp (by positivity))

/-- The Model A pre-normalization next generation is entrywise non-negative. -/
lemma preNormA_nonneg (P : Params) (v : VecA) (hv : NonnegA v)
    (hh0 : 0 ≤ P.h) (hh1 : P.h ≤ 1) (hS0 : 0 ≤ P.S) (hS1 : P.S ≤ 1)
    (hd1 : P.d ≤ 1) (hV0 : 0 ≤ P.V) (hQ : 0 ≤ P.Q) (hF : 0 ≤ P.F)
    (hpp : 0 ≤ P.ppY) : NonnegA (preNormA P v) := by
  obtain ⟨ppA, ppa, ppas⟩ := pollenA_nonneg P v hv hh0 hh1 hQ hpp
  obtain ⟨eeA, eea, eeas⟩ := eggA_nonneg P v hv
    (totalpollenA_nonneg P v hv hh0 hh1 hQ hpp) hh0 hS1 hF
  obtain ⟨h1, h2, h3, h4, h5, h6⟩ := hv
  have hmd : (0 : ℚ) ≤ 1 - P.d := by linarith
  simp only [preNormA, applyVA, addA, outcrossA, selfAddA, selfFrom_Aas_A,
    selfFrom_aas_A, selfFrom_asas_A]
  refine ⟨?_, ?_, ?_, ?_, ?_, ?_⟩ <;> dsimp <;> positivity

/-- A non-negative Model A vector has non-negative total. -/
lemma sumA_nonneg (w : VecA) (hw : NonnegA w) : 0 ≤ sumA w := by
  obtain ⟨h1, h2, h3, h4, h5, h6⟩ := hw
  unfold sumA
  linarith

/-- Raw Model B pollen entries are non-negative for in-range parameters. -/
lemma pollenRawB_nonneg (P : Params) (v : VecB) (hv : NonnegB v)
    (hh0 : 0 ≤ P.h) (hh1 : P.h ≤ 1) (hQ : 0 ≤ P.Q) :
    0 ≤ (pollenRawB P v).p_A_M ∧ 0 ≤ (pollenRawB P v).p_A_m ∧
    0 ≤ (pollenRawB P v).p_a_M ∧ 0 ≤ (pollenRawB P v).p_a_m := by
  obtain ⟨h1, h2, h3, h4, h5, h6, h7, h8, h9⟩ := hv
  have hmh : (0 : ℚ) ≤ 1 - P.h := by linarith
  unfold pollenRawB
  refine ⟨?_, ?_, ?_, ?_⟩ <;> dsimp <;> positivity

/-- Model B total pollen is non-negative for in-range parameters. -/
lemma totalpollenB_nonneg (P : Params) (v : VecB) (hv : NonnegB v)
    (hh0 : 0 ≤ P.h) (hh1 : P.h ≤ 1) (hQ : 0 ≤ P.Q) :
    0 ≤ totalpollenB P v := by
  obtain ⟨hAM, hAm, haM, ham⟩ := pollenRawB_nonneg P v hv hh0 hh1 hQ
  unfold totalpollenB
  linarith

/-- Normalized Model B pollen entries are non-negative. -/
lemma pollenB_nonneg (P : Params) (v : VecB) (hv : NonnegB v)
    (hh0 : 0 ≤ P.h) (hh1 : P.h ≤ 1) (hQ : 0 ≤ P.Q) :
    0 ≤ (pollenB P v).p_A_M ∧ 0 ≤ (pollenB P v).p_A_m ∧
    0 ≤ (pollenB P v).p_a_M ∧ 0 ≤ (pollenB P v).p_a_m := by
  obtain ⟨hAM, hAm, haM, ham⟩ := pollenRawB_nonneg P v hv hh0 hh1 hQ
  unfold pollenB
  split_ifs with ht
  · exact ⟨div_nonneg hAM ht.le, div_nonneg hAm ht.le,
      div_nonneg haM ht.le, div_nonneg ham ht.le⟩
  · exact ⟨hAM, hAm, haM, ham⟩

/-- The normalized Model B pollen pool sums to 1 when total pollen is positive. -/
lemma pollenB_sum_one (P : Params) (v : VecB) (ht : 0 < totalpollenB P v) :
    (pollenB P v).p_A_M + (pollenB P v).p_A_m +
    (pollenB P v).p_a_M + (pollenB P v).p_a_m = 1 := by
  unfold pollenB
  rw [if_pos ht]
  dsimp
  rw [div_add_div_same, div_add_div_same, div_add_div_same]
  have hs : (pollenRawB P v).p_A_M + (pollenRawB P v).p_A_m +
      (pollenRawB P v).p_a_M + (pollenRawB P v).p_a_m = totalpollenB P v := rfl
  rw [hs]
  exact div_self (ne_of_gt ht)

/-- When total pollen is zero the Model B pool is left at the raw values. -/
lemma pollenB_eq_raw (P : Params) (v : VecB) (ht : totalpollenB P v = 0) :
    pollenB P v = pollenRawB P v := by
  unfold pollenB
  rw [if_neg]
  rw [ht]
  exact lt_irrefl 0

/-- Model B egg entries are non-negative for in-range parameters. -/
lemma eggB_nonneg (P : Params) (v : VecB) (hv : NonnegB v)
    (htp : 0 ≤ totalpollenB P v) (hh0 : 0 ≤ P.h) (hS1 : P.S ≤ 1) (hF : 0 ≤ P.F) :
    0 ≤ (eggB P v).e_A_M ∧ 0 ≤ (eggB P v).e_A_m ∧
    0 ≤ (eggB P v).e_a_M ∧ 0 ≤ (eggB P v).e_a_m := by
  obtain ⟨h1, h2, h3, h4, h5, h6, h7, h8, h9⟩ := hv
  have hmS : (0 : ℚ) ≤ 1 - P.S := by linarith
  unfold eggB
  refine ⟨?_, ?_, ?_, ?_⟩ <;> dsimp
  · exact add_nonneg (add_nonneg (add_nonneg (limitC_nonneg htp h1)
      (limitC_nonneg htp (by positivity))) (limitC_nonneg htp (by positivity)))
      (limitC_nonneg htp (by positivity))
  · exact add_nonneg (add_nonneg (limitC_nonneg htp (by positivity))
      (limitC_nonneg htp h3)) (limitC_nonneg htp (by positivity))
  · exact add_nonneg (add_nonneg (add_nonneg (limitC_nonneg htp (by positivity))
      (limitC_nonneg htp (by positivity))) (limitC_nonneg htp (by positivity)))
      (limitC_nonneg htp (by positivity))
  · exact add_nonneg (limitC_nonneg htp (by positivity))
      (limitC_nonneg htp (by positivity))

/-- The Model B pre-normalization next generation is entrywise non-negative. -/
lemma preNormB_nonneg (P : Params) (v : VecB) (hv : NonnegB v)
    (hh0 : 0 ≤ P.h) (hh1 : P.h ≤ 1) (hS0 : 0 ≤ P.S) (hS1 : P.S ≤ 1)
    (hd1 : P.d ≤ 1) (hV0 : 0 ≤ P.V) (hQ : 0 ≤ P.Q) (hF : 0 ≤ P.F) :
    NonnegB (preNormB P v) := by
  obtain ⟨ppAM, ppAm, ppaM, ppam⟩ := pollenB_nonneg P v hv hh0 hh1 hQ
  obtain ⟨eeAM, eeAm, eeaM, eeam⟩ := eggB_nonneg P v hv
    (totalpollenB_nonneg P v hv hh0 hh1 hQ) hh0 hS1 hF
  obtain ⟨h1, h2, h3, h4, h5, h6, h7, h8, h9⟩ := hv
  have hmd : (0 : ℚ) ≤ 1 - P.d := by linarith
  simp only [preNormB, applyVB, addB, outcrossB, selfAddB, selfFrom_AaMM_B,
    selfFrom_AaMm_B, selfFrom_aaMM_B, selfFrom_aaMm_B]
  refine ⟨?_, ?_, ?_, ?_, ?_, ?_, ?_, ?_, ?_⟩ <;> dsimp <;> positivity

/-- A non-negative Model B vector has non-negative total. -/
lemma sumB_nonneg (w : VecB) (hw : NonnegB w) : 0 ≤ sumB w := by
  obtain ⟨h1, h2, h3, h4, h5, h6, h7, h8, h9⟩ := hw
  unfold sumB
  linarith

/-! ## C1: one generation step preserves the simplex (or reaches extinction) -/

/-- C1: from any non-negative frequency vector, with h, S, d, V in the unit
interval and Q, F, PSatF, ppY at least 0, one full generation step of either
model yields a non-negative vector; its entries sum to 1 whenever the
pre-normalization total is positive, and when that total is 0 the vector is
left entirely at 0. -/
theorem generation_step_normalizes (P : Params) (vA : VecA) (vB : VecB)
    (hh0 : 0 ≤ P.h) (hh1 : P.h ≤ 1) (hS0 : 0 ≤ P.S) (hS1 : P.S ≤ 1)
    (hd0 : 0 ≤ P.d) (hd1 : P.d ≤ 1) (hV0 : 0 ≤ P.V) (hV1 : P.V ≤ 1)
    (hQ : 0 ≤ P.Q) (hF : 0 ≤ P.F) (hPS : 0 ≤ P.PSatF) (hpp : 0 ≤ P.ppY)
    (hvA : NonnegA vA) (hvB : NonnegB vB) :
    (NonnegA (genA P vA) ∧ 0 ≤ sumA (preNormA P vA) ∧
     (0 < sumA (preNormA P vA) → sumA (genA P vA) = 1) ∧
     (sumA (preNormA P vA) = 0 → genA P vA = preNormA P vA ∧ genA P vA = zeroA)) ∧
    (NonnegB (genB P vB) ∧ 0 ≤ sumB (preNormB P vB) ∧
     (0 < sumB (preNormB P vB) → sumB (genB P vB) = 1) ∧
     (sumB (preNormB P vB) = 0 → genB P vB = preNormB P vB ∧ genB P vB = zeroB)) := by
  constructor
  · have hw : NonnegA (preNormA P vA) :=
      preNormA_nonneg P vA hvA hh0 hh1 hS0 hS1 hd1 hV0 hQ hF hpp
    have hs0 : 0 ≤ sumA (preNormA P vA) := sumA_nonneg _ hw
    obtain ⟨e1, e2, e3, e4, e5, e6⟩ := hw
    refine ⟨?_, hs0, ?_, ?_⟩
    · unfold genA
      split_ifs with hpos
      · exact ⟨div_nonneg e1 hpos.le, div_nonneg e2 hpos.le, div_nonneg e3 hpos.le,
          div_nonneg e4 hpos.le, div_nonneg e5 hpos.le, div_nonneg e6 hpos.le⟩
      · exact ⟨e1, e2, e3, e4, e5, e6⟩
    · intro hpos
      unfold genA
      rw [if_pos hpos]
      have hsum : sumA ⟨(preNormA P vA).f_AA / sumA (preNormA P vA),
          (preNormA P vA).f_Aa / sumA (preNormA P vA),
          (preNormA P vA).f_Aas / sumA (preNormA P vA),
          (preNormA P vA).f_aa / sumA (preNormA P vA),
          (preNormA P vA).f_aas / sumA (preNormA P vA),
          (preNormA P vA).f_asas / sumA (preNormA P vA)⟩
          = sumA (preNormA P vA) / sumA (preNormA P vA) := by
        unfold sumA
        dsimp
        ring
      rw [hsum]
      exact div_self (ne_of_gt hpos)
    · intro hzero
      have hng : ¬ 0 < sumA (preNormA P vA) := by rw [hzero]; exact lt_irrefl 0
      have hg : genA P vA = preNormA P vA := by unfold genA; rw [if_neg hng]
      refine ⟨hg, ?_⟩
      rw [hg]
      unfold sumA at hzero
      ext <;> simp only [zeroA] <;> linarith
  · have hw : NonnegB (preNormB P vB) :=
      preNormB_nonneg P vB hvB hh0 hh1 hS0 hS1 hd1 hV0 hQ hF
    have hs0 : 0 ≤ sumB (preNormB P vB) := sumB_nonneg _ hw
    obtain ⟨e1, e2, e3, e4, e5, e6, e7, e8, e9⟩ := hw
    refine ⟨?_, hs0, ?_, ?_⟩
    · unfold genB
      split_ifs with hpos
      · exact ⟨div_nonneg e1 hpos.le, div_nonneg e2 hpos.le, div_nonneg e3 hpos.le,
          div_nonneg e4 hpos.le, div_nonneg e5 hpos.le, div_nonneg e6 hpos.le,
          div_nonneg e7 hpos.le, div_nonneg e8 hpos.le, div_nonneg e9 hpos.le⟩
      · exact ⟨e1, e2, e3, e4, e5, e6, e7, e8, e9⟩
    · intro hpos
      unfold genB
      rw [if_pos hpos]
      have hsum : sumB ⟨(preNormB P vB).f_AA_MM / sumB (preNormB P vB),
          (preNormB P vB).f_AA_Mm / sumB (preNormB P vB),
          (preNormB P vB).f_AA_mm / sumB (preNormB P vB),
          (preNormB P vB).f_Aa_MM / sumB (preNormB P vB),
          (preNormB P vB).f_Aa_Mm / sumB (preNormB P vB),
          (preNormB P vB).f_Aa_mm / sumB (preNormB P vB),
          (preNormB P vB).f_aa_MM / sumB (preNormB P vB),
          (preNormB P vB).f_aa_Mm / sumB (preNormB P vB),
          (preNormB P vB).f_aa_mm / sumB (preNormB P vB)⟩
          = sumB (preNormB P vB) / sumB (preNormB P vB) := by
        unfold sumB
        dsimp
        ring
      rw [hsum]
      exact div_self (ne_of_gt hpos)
    · intro hzero
      have hng : ¬ 0 < sumB (preNormB P vB) := by rw [hzero]; exact lt_irrefl 0
      have hg : genB P vB = preNormB P vB := by unfold genB; rw [if_neg hng]
      refine ⟨hg, ?_⟩
      rw [hg]
      unfold sumB at hzero
      ext <;> simp only [zeroB] <;> linarith

/-- Witness for C1 at the default parameter point and the dioecy-invasion
initial conditions of both models. -/
theorem generation_step_normalizes_runs :
    NonnegA (initA false) ∧ NonnegB (initB false) ∧
    ((NonnegA (genA Pdef (initA false)) ∧ 0 ≤ sumA (preNormA Pdef (initA false)) ∧
      (0 < sumA (preNormA Pdef (initA false)) → sumA (genA Pdef (initA false)) = 1) ∧
      (sumA (preNormA Pdef (initA false)) = 0 →
        genA Pdef (initA false) = preNormA Pdef (initA false) ∧
        genA Pdef (initA false) = zeroA)) ∧
     (NonnegB (genB Pdef (initB false)) ∧ 0 ≤ sumB (preNormB Pdef (initB false)) ∧
      (0 < sumB (preNormB Pdef (initB false)) → sumB (genB Pdef (initB false)) = 1) ∧
      (sumB (preNormB Pdef (initB false)) = 0 →
        genB Pdef (initB false) = preNormB Pdef (initB false) ∧
        genB Pdef (initB false) = zeroB))) :=
  ⟨by norm_num [NonnegA, initA], by norm_num [NonnegB, initB],
   generation_step_normalizes Pdef (initA false) (initB false)
     (by norm_num [Pdef]) (by norm_num [Pdef]) (by norm_num [Pdef])
     (by norm_num [Pdef]) (by norm_num [Pdef]) (by norm_num [Pdef])
     (by norm_num [Pdef]) (by norm_num [Pdef]) (by norm_num [Pdef])
     (by norm_num [Pdef]) (by norm_num [Pdef]) (by norm_num [Pdef])
     (by norm_num [NonnegA, initA]) (by norm_num [NonnegB, initB])⟩

/-! ## C2: pollen pool normalization (corrected) -/

/-- Amended C2: pollen pool entries are non-negative; the pool sums to 1
whenever total pollen production is positive and is all-zero exactly when
total pollen production is 0; an entirely-female population always has zero
total pollen production.  (The original claim's converse — that a zero pool
implies an entirely-female population — is refuted by
`pollen_pool_zero_counterexample`.) -/
theorem pollen_pool_normalization (P : Params) (vA : VecA) (vB : VecB)
    (hh0 : 0 ≤ P.h) (hh1 : P.h ≤ 1) (hQ : 0 ≤ P.Q) (hpp : 0 ≤ P.ppY)
    (hvA : NonnegA vA) (hvB : NonnegB vB) :
    ((0 ≤ (pollenA P vA).p_A ∧ 0 ≤ (pollenA P vA).p_a ∧ 0 ≤ (pollenA P vA).p_as) ∧
     (0 < totalpollenA P vA →
       (pollenA P vA).p_A + (pollenA P vA).p_a + (pollenA P vA).p_as = 1) ∧
     (totalpollenA P vA = 0 → pollenA P vA = ⟨0, 0, 0⟩) ∧
     (allFemaleA vA → totalpollenA P vA = 0)) ∧
    ((0 ≤ (pollenB P vB).p_A_M ∧ 0 ≤ (pollenB P vB).p_A_m ∧
      0 ≤ (pollenB P vB).p_a_M ∧ 0 ≤ (pollenB P vB).p_a_m) ∧
     (0 < totalpollenB P vB →
       (pollenB P vB).p_A_M + (pollenB P vB).p_A_m +
       (pollenB P vB).p_a_M + (pollenB P vB).p_a_m = 1) ∧
     (totalpollenB P vB = 0 → pollenB P vB = ⟨0, 0, 0, 0⟩) ∧
     (allFemaleB vB → totalpollenB P vB = 0)) := by
  constructor
  · obtain ⟨hA, ha, has⟩ := pollenRawA_nonneg P vA hvA hh0 hh1 hQ hpp
    refine ⟨pollenA_nonneg P vA hvA hh0 hh1 hQ hpp, pollenA_sum_one P vA, ?_, ?_⟩
    · intro ht
      rw [pollenA_eq_raw P vA ht]
      unfold totalpollenA at ht
      ext <;> dsimp <;> linarith
    · rintro ⟨z1, z2, z3, z4, z5⟩
      unfold totalpollenA pollenRawA
      dsimp
      rw [z1, z2, z3, z4, z5]
      ring
  · obtain ⟨hAM, hAm, haM, ham⟩ := pollenRawB_nonneg P vB hvB hh0 hh1 hQ
    refine ⟨pollenB_nonneg P vB hvB hh0 hh1 hQ, pollenB_sum_one P vB, ?_, ?_⟩
    · intro ht
      rw [pollenB_eq_raw P vB ht]
      unfold totalpollenB at ht
      ext <;> dsimp <;> linarith
    · rintro ⟨z1, z2, z3, z4, z5, z6⟩
      unfold totalpollenB pollenRawB
      dsimp
      rw [z1, z2, z3, z4, z5, z6]
      ring

/-- A parameter point inside all the ranges claimed for C2 (h = 1, Q = 0,
ppY = 1) at which cosexes produce no pollen at all. -/
def PnoPollen : Params := ⟨1, 0, 0, 1, 0, 1, 0, 1⟩

/-- A valid Model A population consisting purely of a*a* inconstants. -/
def vAllStarA : VecA := ⟨0, 0, 0, 0, 0, 1⟩

/-- A valid Model B population consisting purely of aa MM inconstants. -/
def vAllStarB : VecB := ⟨0, 0, 0, 0, 0, 0, 1, 0, 0⟩

/-- Counterexample to C2 as stated: with h = 1 and Q = 0 (both inside the
claimed ranges) a valid, non-female population of inconstants yields a pollen
pool summing to 0 in both models, so a zero pool does not imply an
entirely-female population. -/
theorem pollen_pool_zero_counterexample :
    NonnegA vAllStarA ∧ sumA vAllStarA = 1 ∧ ¬ allFemaleA vAllStarA ∧
    totalpollenA PnoPollen vAllStarA = 0 ∧
    (pollenA PnoPollen vAllStarA).p_A + (pollenA PnoPollen vAllStarA).p_a +
      (pollenA PnoPollen vAllStarA).p_as = 0 ∧
    NonnegB vAllStarB ∧ sumB vAllStarB = 1 ∧ ¬ allFemaleB vAllStarB ∧
    totalpollenB PnoPollen vAllStarB = 0 ∧
    (pollenB PnoPollen vAllStarB).p_A_M + (pollenB PnoPollen vAllStarB).p_A_m +
      (pollenB PnoPollen vAllStarB).p_a_M + (pollenB PnoPollen vAllStarB).p_a_m = 0 := by
  norm_num [NonnegA, NonnegB, sumA, sumB, allFemaleA, allFemaleB, pollenA, pollenB,
    totalpollenA, totalpollenB, pollenRawA, pollenRawB, PnoPollen, vAllStarA, vAllStarB]

/-- Witness for the amended C2 at the default parameter point and the
dioecy-invasion initial conditions. -/
theorem pollen_pool_normalization_runs :
    NonnegA (initA false) ∧ NonnegB (initB false) ∧
    (((0 ≤ (pollenA Pdef (initA false)).p_A ∧ 0 ≤ (pollenA Pdef (initA false)).p_a ∧
       0 ≤ (pollenA Pdef (initA false)).p_as) ∧
      (0 < totalpollenA Pdef (initA false) →
        (pollenA Pdef (initA false)).p_A + (pollenA Pdef (initA false)).p_a +
        (pollenA Pdef (initA false)).p_as = 1) ∧
      (totalpollenA Pdef (initA false) = 0 → pollenA Pdef (initA false) = ⟨0, 0, 0⟩) ∧
      (allFemaleA (initA false) → totalpollenA Pdef (initA false) = 0)) ∧
     ((0 ≤ (pollenB Pdef (initB false)).p_A_M ∧ 0 ≤ (pollenB Pdef (initB false)).p_A_m ∧
       0 ≤ (pollenB Pdef (initB false)).p_a_M ∧ 0 ≤ (pollenB Pdef (initB false)).p_a_m) ∧
      (0 < totalpollenB Pdef (initB false) →
        (pollenB Pdef (initB false)).p_A_M + (pollenB Pdef (initB false)).p_A_m +
        (pollenB Pdef (initB false)).p_a_M + (pollenB Pdef (initB false)).p_a_m = 1) ∧
      (totalpollenB Pdef (initB false) = 0 → pollenB Pdef (initB false) = ⟨0, 0, 0, 0⟩) ∧
      (allFemaleB (initB false) → totalpollenB Pdef (initB false) = 0))) :=
  ⟨by norm_num [NonnegA, initA], by norm_num [NonnegB, initB],
   pollen_pool_normalization Pdef (initA false) (initB false)
     (by norm_num [Pdef]) (by norm_num [Pdef]) (by norm_num [Pdef])
     (by norm_num [Pdef]) (by norm_num [NonnegA, initA]) (by norm_num [NonnegB, initB])⟩

/-! ## C6: every division in a generation step has a positive divisor -/

/-- C6: under non-negative frequencies and in-range parameters, total pollen
is non-negative in both models; the divisions by `PSatF` and `PSatC` happen
only in the pollen-limited branches, whose guards force the respective
threshold to be strictly positive; and zero total pollen or zero total plant
frequency skip normalization, propagating the vector unchanged. -/
theorem division_guards (P : Params) (vA : VecA) (vB : VecB)
    (hh0 : 0 ≤ P.h) (hh1 : P.h ≤ 1) (hS0 : 0 ≤ P.S) (hS1 : P.S ≤ 1)
    (hF0 : 0 ≤ P.F) (hF1 : P.F ≤ 1) (hPS : 0 ≤ P.PSatF)
    (hQ : 0 ≤ P.Q) (hpp : 0 ≤ P.ppY)
    (hvA : NonnegA vA) (hvB : NonnegB vB) :
    (0 ≤ totalpollenA P vA ∧
     (totalpollenA P vA < P.PSatF → 0 < P.PSatF) ∧
     (totalpollenA P vA < PSatC P → 0 < PSatC P) ∧
     (totalpollenA P vA = 0 → pollenA P vA = pollenRawA P vA) ∧
     (sumA (preNormA P vA) = 0 → genA P vA = preNormA P vA)) ∧
    (0 ≤ totalpollenB P vB ∧
     (totalpollenB P vB < P.PSatF → 0 < P.PSatF) ∧
     (totalpollenB P vB < PSatC P → 0 < PSatC P) ∧
     (totalpollenB P vB = 0 → pollenB P vB = pollenRawB P vB) ∧
     (sumB (preNormB P vB) = 0 → genB P vB = preNormB P vB)) := by
  constructor
  · have htp : 0 ≤ totalpollenA P vA := totalpollenA_nonneg P vA hvA hh0 hh1 hQ hpp
    refine ⟨htp, fun hlt => lt_of_le_of_lt htp hlt,
      fun hlt => lt_of_le_of_lt htp hlt, pollenA_eq_raw P vA, ?_⟩
    intro hzero
    unfold genA
    rw [if_neg]
    rw [hzero]
    exact lt_irrefl 0
  · have htp : 0 ≤ totalpollenB P vB := totalpollenB_nonneg P vB hvB hh0 hh1 hQ
    refine ⟨htp, fun hlt => lt_of_le_of_lt htp hlt,
      fun hlt => lt_of_le_of_lt htp hlt, pollenB_eq_raw P vB, ?_⟩
    intro hzero
    unfold genB
    rw [if_neg]
    rw [hzero]
    exact lt_irrefl 0

/-- Witness for C6 at the default parameter point and the dioecy-invasion
initial conditions. -/
theorem division_guards_runs :
    NonnegA (initA false) ∧ NonnegB (initB false) ∧
    ((0 ≤ totalpollenA Pdef (initA false) ∧
      (totalpollenA Pdef (initA false) < Pdef.PSatF → 0 < Pdef.PSatF) ∧
      (totalpollenA Pdef (initA false) < PSatC Pdef → 0 < PSatC Pdef) ∧
      (totalpollenA Pdef (initA false) = 0 →
        pollenA Pdef (initA false) = pollenRawA Pdef (initA false)) ∧
      (sumA (preNormA Pdef (initA false)) = 0 →
        genA Pdef (initA false) = preNormA Pdef (initA false))) ∧
     (0 ≤ totalpollenB Pdef (initB false) ∧
      (totalpollenB Pdef (initB false) < Pdef.PSatF → 0 < Pdef.PSatF) ∧
      (totalpollenB Pdef (initB false) < PSatC Pdef → 0 < PSatC Pdef) ∧
      (totalpollenB Pdef (initB false) = 0 →
        pollenB Pdef (initB false) = pollenRawB Pdef (initB false)) ∧
      (sumB (preNormB Pdef (initB false)) = 0 →
        genB Pdef (initB false) = preNormB Pdef (initB false)))) :=
  ⟨by norm_num [NonnegA, initA], by norm_num [NonnegB, initB],
   division_guards Pdef (initA false) (initB false)
     (by norm_num [Pdef]) (by norm_num [Pdef]) (by norm_num [Pdef])
     (by norm_num [Pdef]) (by norm_num [Pdef]) (by norm_num [Pdef])
     (by norm_num [Pdef]) (by norm_num [Pdef]) (by norm_num [Pdef])
     (by norm_num [NonnegA, initA]) (by norm_num [NonnegB, initB])⟩

/-! ## C3: classifier at threshold 0 (corrected) -/

/-- Amended C3: with threshold 0 and non-negative aggregates, the classifier
returns `none` exactly when the inconstant aggregate is 0 and at least one of
the female and male aggregates is 0.  (The original claim — `none` only when
all three aggregates are 0 — is refuted by
`classifier_zero_threshold_counterexample`.) -/
theorem classifier_zero_threshold (f m i : ℚ)
    (hf : 0 ≤ f) (hm : 0 ≤ m) (hi : 0 ≤ i) :
    classify f m i 0 = Category.none ↔ i = 0 ∧ (f = 0 ∨ m = 0) := by
  constructor
  · intro hx
    unfold classify at hx
    split_ifs at hx with h1 h2 h3 h4 h5
    have hi0 : i = 0 := le_antisymm (not_lt.mp h5) hi
    refine ⟨hi0, ?_⟩
    by_cases hf0 : f = 0
    · exact Or.inl hf0
    · have hfpos : 0 < f := lt_of_le_of_ne hf (Ne.symm hf0)
      have hmn : ¬ m > 0 := fun hmp => h2 ⟨hmp, hfpos⟩
      exact Or.inr (le_antisymm (not_lt.mp hmn) hm)
  · rintro ⟨hi0, hf0 | hm0⟩
    · subst hi0; subst hf0; simp [classify]
    · subst hi0; subst hm0; simp [classify]

/-- The pure-female Model A population. -/
def vPureFemaleA : VecA := ⟨1, 0, 0, 0, 0, 0⟩

/-- Counterexample to C3 as stated: at threshold 0, a valid final vector with
a strictly positive female aggregate (the pure-female population) is
classified `none`, although not all three aggregates are 0. -/
theorem classifier_zero_threshold_counterexample :
    NonnegA vPureFemaleA ∧ sumA vPureFemaleA = 1 ∧
    0 < femaleA vPureFemaleA ∧
    classify (femaleA vPureFemaleA) (maleA vPureFemaleA)
      (inconstantA vPureFemaleA) 0 = Category.none := by
  norm_num [NonnegA, sumA, femaleA, maleA, inconstantA, classify, vPureFemaleA]

/-- Witness for the amended C3 at the concrete aggregates (1, 0, 0). -/
theorem classifier_zero_threshold_runs :
    (0 : ℚ) ≤ 1 ∧
    (classify 1 0 0 0 = Category.none ↔ (0 : ℚ) = 0 ∧ ((1 : ℚ) = 0 ∨ (0 : ℚ) = 0)) :=
  ⟨by norm_num, classifier_zero_threshold 1 0 0 (by norm_num) (by norm_num) (by norm_num)⟩

end Inconstant
